import Mathlib

/-
  Verification development for the MarkFlowEditor cross-file variable
  resolution engine and block markdown projection.

  The definitions below are a shallow embedding of:
  - src/services/crossFileVariableService.ts (CrossFileVariableService):
    parseCrossFileReferences, resolveFilePath, isVariableAccessible,
    resolveCrossFileReference, resolveContent, buildDependencyGraph,
    detectCircularReferences, clearCache.
  - src/components/Preview/Preview.tsx: resolveVariables (the simple
    double-brace substitution pass) and the per-block markdown projection
    inside the markdown useMemo.
  - src/types.ts: the data model (ProjectData, FileData, Block, Variable,
    TableData, EmbedData, CrossFileVariableRef, DependencyGraph).

  Modelling conventions:
  - TypeScript string enums (BlockType, visibility, ref syntax/status) are
    modelled as Lean String values, matching the duck-typed TS runtime.
  - The TS field named syntax on CrossFileVariableRef is modelled as
    refKind, because syntax is a reserved word in Lean.
  - JS Map objects (the memoization cache, refsByFile, fileRefs) are
    modelled as insertion-ordered association lists with JS Map semantics:
    set replaces the value in place, iteration order is insertion order.
  - JS regex scanning (exec with the g flag) is modelled by hand-rolled
    left-to-right scanners. The three regexes used by the service and the
    preview have no effective backtracking (each greedy piece is followed
    by a character excluded from its class), so maximal-munch scanning is
    exactly equivalent.
  - The scanners use structural recursion on a fuel argument initialised
    to the input length; every iteration consumes at least one character,
    so the fuel never runs out on the initial call.
  - Date-valued metadata fields (timestamps, counters) are omitted: the
    resolution and projection code never reads them.
  - String.replace with a global regex built from an escaped literal is
    modelled as literal global (leftmost, non-overlapping) replacement;
    the escaping in the source makes the regex match exactly that literal.
    JS dollar-escape sequences in the replacement string are not modelled
    (no value in any claim contains them).
-/

namespace MarkFlow

/-- Association-list lookup with JS Map.get semantics (keys are unique). -/
def mapGet (m : List (String × String)) (k : String) : Option String :=
  match m.find? (fun p => p.1 == k) with
  | some p => some p.2
  | none => none

/-- Association-list update with JS Map.set semantics: replace the value in
place if the key exists, otherwise append at the end (insertion order). -/
def mapSet (m : List (String × String)) (k v : String) : List (String × String) :=
  if m.any (fun p => p.1 == k) then
    m.map (fun p => if p.1 == k then (k, v) else p)
  else
    m ++ [(k, v)]

/-- Prefix test on the character lists (String.startsWith; reimplemented
over the character data so that proofs can evaluate it). -/
def startsWithStr (s pre : String) : Bool :=
  pre.data.isPrefixOf s.data

/-- Suffix test on the character lists (String.endsWith). -/
def endsWithStr (s suf : String) : Bool :=
  suf.data.reverse.isPrefixOf s.data.reverse

/-- Lower-casing over the character data (String.toLowerCase in JS). -/
def toLowerStr (s : String) : String :=
  String.mk (s.data.map Char.toLower)

/-- Whitespace trim at both ends over the character data (JS trim). -/
def trimStr (s : String) : String :=
  String.mk (((s.data.dropWhile Char.isWhitespace).reverse.dropWhile Char.isWhitespace).reverse)

/-- Split on a single separator character, accumulating the current chunk
(JS split with a one-character separator; the empty string yields one
empty chunk, adjacent separators yield empty chunks). -/
def splitOnCharAux (sep : Char) : List Char → List Char → List String
  | [], acc => [String.mk acc.reverse]
  | c :: cs, acc =>
    if c == sep then String.mk acc.reverse :: splitOnCharAux sep cs []
    else splitOnCharAux sep cs (c :: acc)

/-- String wrapper for splitOnCharAux. -/
def splitOnChar (s : String) (sep : Char) : List String :=
  splitOnCharAux sep s.data []

/-- Character membership over the character data (String.includes of one
character in JS). -/
def containsChar (s : String) (c : Char) : Bool :=
  s.data.contains c

/-- Character class of the regex fragment [A-Z_] (VARNAME head in the
file-path reference syntax). -/
def fpVarHead (c : Char) : Bool :=
  ('A' ≤ c && c ≤ 'Z') || c == '_'

/-- Character class of the regex fragment [A-Z0-9_] (VARNAME tail in the
file-path reference syntax). -/
def fpVarTail (c : Char) : Bool :=
  ('A' ≤ c && c ≤ 'Z') || ('0' ≤ c && c ≤ '9') || c == '_'

/-- Character class of the regex fragment [a-zA-Z0-9_-] (the filename part
of the double-brace filename.variable reference syntax). -/
def fnNameChar (c : Char) : Bool :=
  c.isAlphanum || c == '_' || c == '-'

/-- Character class of the regex fragment [a-zA-Z0-9_] (the variable part
of the double-brace filename.variable reference syntax). -/
def fnVarChar (c : Char) : Bool :=
  c.isAlphanum || c == '_'

/-- Simple variable keys used in the generic substitution theorems:
nonempty strings of ASCII alphanumerics and underscore. -/
def isKeyChar (c : Char) : Bool :=
  c.isAlphanum || c == '_'

/-- Match a literal character sequence at the head of the input, returning
the remaining input on success. -/
def stripPrefixChars : List Char → List Char → Option (List Char)
  | [], l => some l
  | _ :: _, [] => none
  | p :: ps, c :: cs => if c == p then stripPrefixChars ps cs else none

/-- Variable (src/types.ts). The optional visibility tag is the string
public, private or protected (absent means public); it is modelled as an
Option String exactly as the TS field is string-or-undefined. -/
structure Variable where
  id : String
  key : String
  value : String
  isOutput : Bool := false
  visibility : Option String := none
deriving Repr, DecidableEq

/-- TableData (src/types.ts). -/
structure TableData where
  headers : List String
  rows : List (List String)
  alignments : Option (List String) := none
deriving Repr, DecidableEq

/-- EmbedData (src/types.ts). -/
structure EmbedData where
  sourceFileId : String
  sourceBlockId : String
  isLinked : Bool := true
deriving Repr, DecidableEq

/-- LinkData (src/types.ts). -/
structure LinkData where
  targetFileId : String
  targetBlockId : Option String := none
  displayMode : String := "inline"
deriving Repr, DecidableEq

/-- The content variant of a block: string | TableData | LinkData |
EmbedData in the source. -/
inductive BlockContent where
  | text : String → BlockContent
  | table : TableData → BlockContent
  | link : LinkData → BlockContent
  | embed : EmbedData → BlockContent
deriving Repr, DecidableEq

/-- Block (src/types.ts). The type field carries the BlockType string enum
value (h1..h6, p, ul, ol, code, table, quote, image, link, jsonschema,
output, embed). Timestamp metadata is omitted (never read by the core). -/
structure Block where
  id : String
  type : String
  name : Option String := none
  content : BlockContent
deriving Repr, DecidableEq

/-- FileData (src/types.ts), restricted to the fields the core reads. -/
structure FileData where
  id : String
  name : String
  localVariables : List Variable := []
  blocks : List Block := []
deriving Repr, DecidableEq

/-- ProjectData (src/types.ts), restricted to the fields the core reads. -/
structure ProjectData where
  id : String := ""
  name : String := ""
  globalVariables : List Variable := []
  files : List FileData := []
deriving Repr, DecidableEq

/-- CrossFileVariableRef (resolution-time reference record). The TS field
syntax (value file-path or filename) is modelled as refKind. -/
structure CrossFileVariableRef where
  refKind : String
  filePath : String
  variableName : String
  isRelative : Bool
  status : String
  resolvedValue : Option String := none
  resolvedFileId : Option String := none
  error : Option String := none
deriving Repr, DecidableEq

/-- FileDependency (one edge of the dependency graph). -/
structure FileDependency where
  sourceFileId : String
  targetFileId : String
  variableRefs : List CrossFileVariableRef
deriving Repr, DecidableEq

/-- DependencyGraph (edges plus detected cycles). -/
structure DependencyGraph where
  dependencies : List FileDependency
  circularRefs : List (List String)
deriving Repr, DecidableEq

/-- The memoization cache of CrossFileVariableService (a JS Map from the
cache key string to the resolved value). -/
abbrev Cache := List (String × String)

/-- Try to match the file-path reference regex at the head of the input:
dollar, open brace, file:, then (\.\.?\.?/[^:]+) with at most two leading
dots, a colon, ([A-Z_][A-Z0-9_]*), and a closing brace. Returns the two
capture groups and the rest of the input after the match. -/
def tryFilePathRef (l : List Char) : Option (String × String × List Char) :=
  match stripPrefixChars ('$' :: '{' :: 'f' :: 'i' :: 'l' :: 'e' :: ':' :: []) l with
  | none => none
  | some r1 =>
    let dots := r1.takeWhile (fun c => c == '.')
    if dots.length ≤ 2 then
      match r1.dropWhile (fun c => c == '.') with
      | '/' :: r2 =>
        let body := r2.takeWhile (fun c => !(c == ':'))
        match body, r2.dropWhile (fun c => !(c == ':')) with
        | [], _ => none
        | _ :: _, ':' :: r4 =>
          match r4 with
          | c :: r5 =>
            if fpVarHead c then
              let vtail := r5.takeWhile fpVarTail
              match r5.dropWhile fpVarTail with
              | '}' :: r7 =>
                some (String.mk (dots ++ '/' :: body), String.mk (c :: vtail), r7)
              | _ => none
            else none
          | [] => none
        | _ :: _, _ => none
      | _ => none
    else none

/-- Try to match the filename reference regex at the head of the input:
two open braces, ([a-zA-Z0-9_-]+), a dot, ([a-zA-Z0-9_]+), two closing
braces. Returns the two capture groups and the rest of the input. -/
def tryFilenameRef (l : List Char) : Option (String × String × List Char) :=
  match stripPrefixChars ('{' :: '{' :: []) l with
  | none => none
  | some r1 =>
    let name := r1.takeWhile fnNameChar
    match name, r1.dropWhile fnNameChar with
    | [], _ => none
    | _ :: _, '.' :: r2 =>
      let vn := r2.takeWhile fnVarChar
      match vn, r2.dropWhile fnVarChar with
      | [], _ => none
      | _ :: _, '}' :: '}' :: r3 => some (String.mk name, String.mk vn, r3)
      | _ :: _, _ => none
    | _ :: _, _ => none

/-- Left-to-right global regex scan (JS exec with the g flag): at each
position try the matcher; on success emit the captures and continue after
the match, otherwise advance one character. Fuel-based structural
recursion; the initial fuel (input length) is always sufficient because
every step consumes at least one character. -/
def scanRefsAux (tryRef : List Char → Option (String × String × List Char)) :
    Nat → List Char → List (String × String)
  | 0, _ => []
  | _ + 1, [] => []
  | fuel + 1, c :: cs =>
    match tryRef (c :: cs) with
    | some (a, b, rest) => (a, b) :: scanRefsAux tryRef fuel rest
    | none => scanRefsAux tryRef fuel cs

/-- parseCrossFileReferences: scan both grammars over the text and
concatenate file-path matches before filename matches, in match order. -/
def parseCrossFileReferences (content : String) : List CrossFileVariableRef :=
  let fps := scanRefsAux tryFilePathRef content.data.length content.data
  let fns := scanRefsAux tryFilenameRef content.data.length content.data
  fps.map (fun pv =>
    { refKind := "file-path", filePath := trimStr pv.1, variableName := trimStr pv.2,
      isRelative := startsWithStr pv.1 "./" || startsWithStr pv.1 "../",
      status := "pending" })
  ++ fns.map (fun pv =>
    { refKind := "filename", filePath := trimStr pv.1, variableName := trimStr pv.2,
      isRelative := false, status := "pending" })

/-- resolveFilePath: map a relative or absolute path to a file id by
basename lookup, after checking the current file exists. -/
def resolveFilePath (currentFileId : String) (relativePath : String)
    (project : ProjectData) : Option String :=
  match project.files.find? (fun f => f.id == currentFileId) with
  | none => none
  | some _ =>
    if startsWithStr relativePath "./" then
      (project.files.find? (fun f => f.name == relativePath.drop 2)).map (fun f => f.id)
    else if startsWithStr relativePath "../" then
      (project.files.find? (fun f =>
        f.name == (splitOnChar relativePath '/').getLastD "")).map (fun f => f.id)
    else if startsWithStr relativePath "/" then
      (project.files.find? (fun f => f.name == relativePath.drop 1)).map (fun f => f.id)
    else
      (project.files.find? (fun f => f.name == relativePath)).map (fun f => f.id)

/-- isVariableAccessible: no tag or public (or the falsy empty string) is
accessible; private only from the declaring file; protected behaves as
public; any other tag is inaccessible. -/
def isVariableAccessible (v : Variable) (sourceFileId targetFileId : String) : Bool :=
  match v.visibility with
  | none => true
  | some vis =>
    if vis == "" || vis == "public" then true
    else if vis == "private" then sourceFileId == targetFileId
    else if vis == "protected" then true
    else false

/-- Strip a trailing .md or .markdown extension, case-insensitively
(the regex replace of \.(md|markdown)$ with the i flag). -/
def stripMdExt (s : String) : String :=
  if endsWithStr (toLowerStr s) ".md" then s.dropRight 3
  else if endsWithStr (toLowerStr s) ".markdown" then s.dropRight 9
  else s

/-- The memoization cache key: currentFileId, syntax tag, file path and
variable name joined with colons. -/
def cacheKey (currentFileId : String) (ref : CrossFileVariableRef) : String :=
  currentFileId ++ ":" ++ ref.refKind ++ ":" ++ ref.filePath ++ ":" ++ ref.variableName

/-- Target-file resolution step of resolveCrossFileReference: filename
syntax matches files by extension-stripped basename; file-path syntax
delegates to resolveFilePath. -/
def findTargetFileId (ref : CrossFileVariableRef) (currentFileId : String)
    (project : ProjectData) : Option String :=
  if ref.refKind == "filename" then
    match project.files.find? (fun f => stripMdExt f.name == stripMdExt ref.filePath) with
    | some f => some f.id
    | none => none
  else
    resolveFilePath currentFileId ref.filePath project

/-- Variable lookup in the target file: local variables first, then the
project global variables, first match by key wins. -/
def lookupVariable (targetFile : FileData) (project : ProjectData)
    (name : String) : Option Variable :=
  match targetFile.localVariables.find? (fun v => v.key == name) with
  | some v => some v
  | none => project.globalVariables.find? (fun v => v.key == name)

/-- resolveCrossFileReference: cache hit returns immediately with the
cached value and resolved status; otherwise resolve the target file, look
up the variable (local then global), check accessibility, and on success
store the value in the cache. The cache is threaded explicitly (it is
instance state of the service in the source). -/
def resolveCrossFileReference (ref : CrossFileVariableRef) (currentFileId : String)
    (project : ProjectData) (cache : Cache) : CrossFileVariableRef × Cache :=
  match mapGet cache (cacheKey currentFileId ref) with
  | some v => ({ ref with resolvedValue := some v, status := "resolved" }, cache)
  | none =>
    match findTargetFileId ref currentFileId project with
    | none =>
      ({ ref with status := "error", error := some ("File not found: " ++ ref.filePath) }, cache)
    | some tid =>
      match project.files.find? (fun f => f.id == tid) with
      | none =>
        ({ ref with status := "error", error := some ("File not found: " ++ ref.filePath) }, cache)
      | some targetFile =>
        match lookupVariable targetFile project ref.variableName with
        | none =>
          ({ ref with
              resolvedFileId := some tid,
              status := "not-found",
              error := some ("Variable \x27" ++ ref.variableName ++ "\x27 not found in file " ++ ref.filePath) }, cache)
        | some vr =>
          if isVariableAccessible vr currentFileId tid then
            ({ ref with
                resolvedValue := some vr.value,
                resolvedFileId := some tid,
                status := "resolved" },
             mapSet cache (cacheKey currentFileId ref) vr.value)
          else
            ({ ref with
                resolvedFileId := some tid,
                status := "error",
                error := some ("Variable \x27" ++ ref.variableName ++ "\x27 is not accessible (" ++ vr.visibility.getD "undefined" ++ ")") }, cache)

/-- clearCache: empty the memoization cache. -/
def clearCache (_cache : Cache) : Cache := []

/-- JS truthiness of an optional string (undefined and the empty string
are falsy). -/
def optTruthy : Option String → Bool
  | some s => !(s == "")
  | none => false

/-- JS or-else on an optional string: the default replaces both undefined
and the falsy empty string. -/
def strOrDefault : Option String → String → String
  | some s, d => if s == "" then d else s
  | none, d => d

/-- Literal global replacement of a nonempty pattern, leftmost first and
non-overlapping, continuing after each replacement (the behavior of JS
String.replace with a g-flagged regex that matches a fixed literal).
Fuel-based; the initial fuel (input length) is always sufficient. -/
def replaceAllAux (pat rep : List Char) : Nat → List Char → List Char
  | 0, l => l
  | _ + 1, [] => []
  | fuel + 1, c :: cs =>
    if pat ≠ [] ∧ pat.isPrefixOf (c :: cs) then
      rep ++ replaceAllAux pat rep fuel ((c :: cs).drop pat.length)
    else
      c :: replaceAllAux pat rep fuel cs

/-- String wrapper for replaceAllAux. -/
def replaceAllStr (s pat rep : String) : String :=
  String.mk (replaceAllAux pat.data rep.data s.data.length s.data)

/-- The exact literal text of a reference, reconstructed from its fields
(the source builds an escaped regex that matches exactly this literal). -/
def refLiteral (ref : CrossFileVariableRef) : String :=
  if ref.refKind == "filename" then
    "\x7b\x7b" ++ ref.filePath ++ "." ++ ref.variableName ++ "\x7d\x7d"
  else
    "$\x7bfile:" ++ ref.filePath ++ ":" ++ ref.variableName ++ "\x7d"

/-- Loop body of resolveContent: resolve one reference and replace every
occurrence of its literal text with the resolved value, or with an
ERROR-bracketed message when the status is not resolved or the resolved
value is falsy. -/
def resolveContentStep (currentFileId : String) (project : ProjectData)
    (acc : String × Cache) (ref : CrossFileVariableRef) : String × Cache :=
  let rc := resolveCrossFileReference ref currentFileId project acc.2
  let pattern := refLiteral ref
  if rc.1.status == "resolved" && optTruthy rc.1.resolvedValue then
    (replaceAllStr acc.1 pattern (rc.1.resolvedValue.getD ""), rc.2)
  else
    (replaceAllStr acc.1 pattern ("[ERROR: " ++ strOrDefault rc.1.error "Unresolved reference" ++ "]"), rc.2)

/-- resolveContent: parse all references in the text and fold the
per-reference resolution and replacement over them in parse order. -/
def resolveContent (content : String) (currentFileId : String)
    (project : ProjectData) (cache : Cache) : String × Cache :=
  (parseCrossFileReferences content).foldl (resolveContentStep currentFileId project) (content, cache)

/-- Resolve a list of parsed references in order, threading the cache
(the refs.map over resolveCrossFileReference in buildDependencyGraph). -/
def resolveRefsList (refs : List CrossFileVariableRef) (fid : String)
    (project : ProjectData) (cache : Cache) : List CrossFileVariableRef × Cache :=
  refs.foldl (fun acc r =>
    let rc := resolveCrossFileReference r fid project acc.2
    (acc.1 ++ [rc.1], rc.2)) ([], cache)

/-- Append a resolved ref to the per-target-file group map (JS Map of
lists, insertion ordered). -/
def assocPushRef (m : List (String × List CrossFileVariableRef)) (k : String)
    (r : CrossFileVariableRef) : List (String × List CrossFileVariableRef) :=
  if m.any (fun p => p.1 == k) then
    m.map (fun p => if p.1 == k then (p.1, p.2 ++ [r]) else p)
  else
    m ++ [(k, [r])]

/-- Add a target file id to a source file's adjacency set (JS Map of Sets,
both insertion ordered, the Set deduplicating). -/
def assocAddTarget (m : List (String × List String)) (k x : String) :
    List (String × List String) :=
  if m.any (fun p => p.1 == k) then
    m.map (fun p => if p.1 == k then (p.1, if p.2.contains x then p.2 else p.2 ++ [x]) else p)
  else
    m ++ [(k, [x])]

/-- Adjacency lookup (fileRefs.get with a default empty set). -/
def assocGetL (m : List (String × List String)) (k : String) : List String :=
  match m.find? (fun p => p.1 == k) with
  | some p => p.2
  | none => []

/-- Per-block body of buildDependencyGraph: for a plain-text block, parse
and resolve every reference, group the refs that carry a resolvedFileId by
target file, emit one dependency edge per target, and record the adjacency
used for cycle detection. The accumulator is (dependencies, fileRefs,
cache). -/
def processBlockForGraph (project : ProjectData) (fid : String)
    (acc : List FileDependency × List (String × List String) × Cache) (block : Block) :
    List FileDependency × List (String × List String) × Cache :=
  match block.content with
  | .text s =>
    let refs := parseCrossFileReferences s
    if refs.isEmpty then acc
    else
      let rl := resolveRefsList refs fid project acc.2.2
      let grouped := rl.1.foldl
        (fun (g : List (String × List CrossFileVariableRef) × List (String × List String)) rr =>
          match rr.resolvedFileId with
          | some tid => (assocPushRef g.1 tid rr, assocAddTarget g.2 fid tid)
          | none => g)
        ([], acc.2.1)
      (acc.1 ++ grouped.1.map (fun p => FileDependency.mk fid p.1 p.2), grouped.2, rl.2)
  | _ => acc

/-- DFS state of detectCircularReferences: visited set, recursion stack and
accumulated cycles (sets modelled as insertion-ordered duplicate-free
lists). -/
structure DfsState where
  visited : List String
  stack : List String
  cycles : List (List String)
deriving Repr, DecidableEq

/-- One DFS visit of detectCircularReferences: a node already on the
recursion stack closes a cycle (the path slice from its first occurrence,
with the node repeated at the end); an already-visited node short-circuits;
otherwise mark visited, push on the stack, recurse into the adjacency list
and pop. Fuel-based; each recursive call happens only under a freshly
visited node, so a fuel exceeding the total node count is sufficient. -/
def dfsVisit (fileRefs : List (String × List String)) :
    Nat → String → List String → DfsState → DfsState
  | 0, _, _, st => st
  | fuel + 1, node, path, st =>
    if st.stack.contains node then
      if path.contains node then
        { st with cycles := st.cycles ++ [path.drop (path.findIdx (fun x => x == node)) ++ [node]] }
      else st
    else if st.visited.contains node then st
    else
      let st1 := { st with visited := st.visited ++ [node], stack := st.stack ++ [node] }
      let st2 := (assocGetL fileRefs node).foldl
        (fun s nb => dfsVisit fileRefs fuel nb (path ++ [node]) s) st1
      { st2 with stack := st2.stack.erase node }

/-- detectCircularReferences: run the DFS from every not-yet-visited key of
the adjacency map, in insertion order, and return the collected cycles. -/
def detectCircularReferences (fileRefs : List (String × List String)) : List (List String) :=
  let fuel := fileRefs.length + (fileRefs.map (fun p => p.2.length)).sum + 1
  let st := fileRefs.foldl
    (fun st p => if st.visited.contains p.1 then st else dfsVisit fileRefs fuel p.1 [] st)
    { visited := [], stack := [], cycles := [] }
  st.cycles

/-- buildDependencyGraph: scan every block of every file, accumulate
dependency edges and the adjacency map, then detect cycles. -/
def buildDependencyGraph (project : ProjectData) (cache : Cache) :
    DependencyGraph × Cache :=
  let acc := project.files.foldl
    (fun acc f => f.blocks.foldl (processBlockForGraph project f.id) acc)
    ([], [], cache)
  ({ dependencies := acc.1, circularRefs := detectCircularReferences acc.2.1 }, acc.2.2)

/-- The quick-lookup variable map of Preview.resolveVariables: a JS Map
built from the supplied variable list, so a later entry with the same key
overwrites an earlier one. -/
def buildVariableMap (vars : List Variable) : List (String × String) :=
  vars.foldl (fun m v => mapSet m v.key v.value) []

/-- Lookup of an explicitly GLOBAL.-prefixed key, strictly in the project
global variables (the ternary in the source tests the found object, so an
empty value is returned as-is). -/
def globalLookup (gvars : List Variable) (gk : String) : String :=
  match gvars.find? (fun v => v.key == gk) with
  | some gv => gv.value
  | none => "[Unknown Global: " ++ gk ++ "]"

/-- Replacement text for one double-brace span: trim the inner key, handle
the GLOBAL. prefix, otherwise consult the variable map; the or-else on the
looked-up value makes an empty string fall back to the Unknown marker. -/
def substFor (gvars : List Variable) (vmap : List (String × String)) (raw : String) : String :=
  if startsWithStr (trimStr raw) "GLOBAL." then globalLookup gvars ((trimStr raw).drop 7)
  else
    match mapGet vmap (trimStr raw) with
    | some v => if v == "" then "[Unknown: " ++ trimStr raw ++ "]" else v
    | none => "[Unknown: " ++ trimStr raw ++ "]"

/-- Try to match one simple-substitution span at the head of the input:
two open braces, one or more non-close-brace characters, two close braces
(the regex with a bracketed non-close-brace class). Returns the
replacement and the rest of the input. -/
def trySimpleAt (gvars : List Variable) (vmap : List (String × String)) :
    List Char → Option (List Char × List Char)
  | '{' :: '{' :: rest =>
    match rest.takeWhile (fun c => !(c == '}')), rest.dropWhile (fun c => !(c == '}')) with
    | [], _ => none
    | i0 :: irest, '}' :: '}' :: tail => some ((substFor gvars vmap (String.mk (i0 :: irest))).data, tail)
    | _ :: _, _ => none
  | _ => none

/-- Global replace of the simple-substitution regex with the per-match
replacement callback, leftmost first, continuing after each match.
Fuel-based; the initial fuel (input length) is always sufficient. -/
def simpleSubstAux (gvars : List Variable) (vmap : List (String × String)) :
    Nat → List Char → List Char
  | 0, l => l
  | _ + 1, [] => []
  | fuel + 1, c :: cs =>
    match trySimpleAt gvars vmap (c :: cs) with
    | some (rep, rest) => rep ++ simpleSubstAux gvars vmap fuel rest
    | none => c :: simpleSubstAux gvars vmap fuel cs

/-- The simple double-brace substitution pass of Preview.resolveVariables,
over a given variable list (globals are consulted separately for the
GLOBAL. prefix). -/
def simpleSubstitute (gvars : List Variable) (vars : List Variable) (s : String) : String :=
  String.mk (simpleSubstAux gvars (buildVariableMap vars) s.data.length s.data)

/-- Preview.resolveVariables: first the cross-file pass (when a current
file exists), then the simple double-brace substitution over the supplied
variable list. Returns the text together with the service cache. -/
def resolveVariables (project : ProjectData) (currentFile : Option FileData) (cache : Cache)
    (content : String) (vars : List Variable) : String × Cache :=
  match currentFile with
  | some cf =>
    (simpleSubstitute project.globalVariables vars (resolveContent content cf.id project cache).1,
     (resolveContent content cf.id project cache).2)
  | none => (simpleSubstitute project.globalVariables vars content, cache)

/-- Per-column separator cell of the markdown table projection: the
alignment defaults to left when the alignments array is absent, too short,
or holds a falsy entry. -/
def alignmentCell (t : TableData) (idx : Nat) : String :=
  let a := match t.alignments with
    | some l =>
      match l.get? idx with
      | some s => if s == "" then "left" else s
      | none => "left"
    | none => "left"
  if a == "center" then ":---:" else if a == "right" then "---:" else "---"

/-- Markdown projection of table data: header row, alignment separator
row, then the data rows joined by newlines (no trailing newline). -/
def tableMarkdown (t : TableData) : String :=
  let headerRow := "| " ++ String.intercalate " | " t.headers ++ " |"
  let sepRow := "| " ++ String.intercalate " | " ((List.range t.headers.length).map (alignmentCell t)) ++ " |"
  let dataRows := String.intercalate "\n" (t.rows.map (fun row => "| " ++ String.intercalate " | " row ++ " |"))
  headerRow ++ "\n" ++ sepRow ++ "\n" ++ dataRows

/-- Lookup of an embed's source block: find the source file by id, then
the source block by id within it. -/
def embedSourceBlock (project : ProjectData) (e : EmbedData) : Option Block :=
  match project.files.find? (fun f => f.id == e.sourceFileId) with
  | some sf => sf.blocks.find? (fun b => b.id == e.sourceBlockId)
  | none => none

/-- Lines of a list block: split on newline and drop blank lines (the
filter on the trimmed line's truthiness). -/
def listLines (s : String) : List String :=
  (splitOnChar s '\n').filter (fun l => !(trimStr l == ""))

/-- Per-block markdown projection (the switch inside the markdown useMemo
of Preview.tsx): the string this block appends to the accumulated result.
Branches that type-probe the content (typeof content being a string, or
the cast to TableData guarded by a headers check) are modelled by matching
on the content variant; a non-string, non-matching content contributes
what the JS duck typing produces (nothing, an Empty Table marker, or a
not-found placeholder). The embed case looks up the source block and
projects it one level only: a string content is inlined, a table-typed
block is projected as a table, and every other source block type (embeds
included) degrades to the opaque Embedded-type-content marker. -/
def blockToMarkdown (project : ProjectData) (block : Block) : String :=
  if block.type == "h1" then
    match block.content with | .text s => "# " ++ s ++ "\n\n" | _ => ""
  else if block.type == "h2" then
    match block.content with | .text s => "## " ++ s ++ "\n\n" | _ => ""
  else if block.type == "h3" then
    match block.content with | .text s => "### " ++ s ++ "\n\n" | _ => ""
  else if block.type == "h4" then
    match block.content with | .text s => "#### " ++ s ++ "\n\n" | _ => ""
  else if block.type == "h5" then
    match block.content with | .text s => "##### " ++ s ++ "\n\n" | _ => ""
  else if block.type == "h6" then
    match block.content with | .text s => "###### " ++ s ++ "\n\n" | _ => ""
  else if block.type == "p" then
    match block.content with | .text s => s ++ "\n\n" | _ => ""
  else if block.type == "ul" then
    match block.content with
    | .text s => String.join ((listLines s).map (fun l => "- " ++ l ++ "\n")) ++ "\n"
    | _ => ""
  else if block.type == "ol" then
    match block.content with
    | .text s =>
      String.join ((listLines s).enum.map (fun p => toString (p.1 + 1) ++ ". " ++ p.2 ++ "\n")) ++ "\n"
    | _ => ""
  else if block.type == "code" then
    match block.content with | .text s => "```\n" ++ s ++ "\n```\n\n" | _ => ""
  else if block.type == "table" then
    match block.content with
    | .table t => if t.headers.length > 0 then tableMarkdown t else "[Empty Table]"
    | _ => "[Empty Table]"
  else if block.type == "quote" then
    match block.content with
    | .text s => String.join ((splitOnChar s '\n').map (fun l => "> " ++ l ++ "\n"))
    | _ => ""
  else if block.type == "image" then
    match block.content with | .text s => "![Image](" ++ s ++ ")" | _ => ""
  else if block.type == "link" then
    match block.content with
    | .text s =>
      if containsChar s '|' then
        "[" ++ ((splitOnChar s '|').headD "") ++ "](" ++ (((splitOnChar s '|').drop 1).headD "") ++ ")"
      else ""
    | _ => ""
  else if block.type == "jsonschema" then
    match block.content with | .text s => "```json\n" ++ s ++ "\n```" | _ => ""
  else if block.type == "output" then
    match block.content with | .text s => "```\n" ++ s ++ "\n```" | _ => ""
  else if block.type == "embed" then
    match block.content with
    | .embed e =>
      match embedSourceBlock project e with
      | some sb =>
        match sb.content with
        | .text s => s ++ "\n\n"
        | _ =>
          if sb.type == "table" then
            match sb.content with
            | .table t =>
              if t.headers.length > 0 then tableMarkdown t ++ "\n\n" else "[Empty Table]\n\n"
            | _ => "[Empty Table]\n\n"
          else "[Embedded " ++ sb.type ++ " content]\n\n"
      | none => "[Embedded block not found]\n\n"
    | .text s => if s == "" then "" else "[Embedded block not found]\n\n"
    | _ => "[Embedded block not found]\n\n"
  else "[" ++ block.type ++ " Block]"

/-- The full markdown projection of a file: concatenate every block's
contribution, then run both variable-resolution passes with the combined
global-then-local variable list (the markdown useMemo of Preview.tsx). -/
def fileMarkdown (project : ProjectData) (cf : FileData) (cache : Cache) : String × Cache :=
  resolveVariables project (some cf) cache
    (String.join (cf.blocks.map (blockToMarkdown project)))
    (project.globalVariables ++ cf.localVariables)

/-! Concrete projects and blocks used as claim counterexamples and
witness inputs. -/

/-- A project with no files and no variables. -/
def emptyProject : ProjectData := {}

/-- File whose local variable shares the key of a global (tie scenario). -/
def fileC1 : FileData :=
  { id := "f1", name := "a.md",
    localVariables := [{ id := "lv1", key := "shared", value := "L" }] }

/-- Project declaring the key shared both globally (value G) and locally in
fileC1 (value L). -/
def projC1 : ProjectData :=
  { globalVariables := [{ id := "gv1", key := "shared", value := "G" }],
    files := [fileC1] }

/-- Project where file a holds a file-path reference to the variable X of
file b.md. -/
def projC2 : ProjectData :=
  { files :=
      [{ id := "a", name := "a.md",
         blocks := [{ id := "b1", type := "p", content := .text "$\x7bfile:./b.md:X\x7d" }] },
       { id := "b", name := "b.md",
         localVariables := [{ id := "x", key := "X", value := "v" }] }] }

/-- The reference parsed from file a's block in projC2. -/
def refC2 : CrossFileVariableRef :=
  { refKind := "file-path", filePath := "./b.md", variableName := "X",
    isRelative := true, status := "pending" }

/-- A cache already holding the key of refC2 as resolved from file a. -/
def cacheC2 : Cache := [("a:file-path:./b.md:X", "v")]

/-- Three files forming a reference cycle: a reads from b.md, b from c.md,
c from a.md, each target declaring the referenced public variable. -/
def projC3 : ProjectData :=
  { files :=
      [{ id := "a", name := "a.md",
         localVariables := [{ id := "va", key := "XA", value := "1" }],
         blocks := [{ id := "ba", type := "p", content := .text "$\x7bfile:./b.md:XB\x7d" }] },
       { id := "b", name := "b.md",
         localVariables := [{ id := "vb", key := "XB", value := "2" }],
         blocks := [{ id := "bb", type := "p", content := .text "$\x7bfile:./c.md:XC\x7d" }] },
       { id := "c", name := "c.md",
         localVariables := [{ id := "vc", key := "XC", value := "3" }],
         blocks := [{ id := "bc", type := "p", content := .text "$\x7bfile:./a.md:XA\x7d" }] }] }

/-- File a.md declaring X with value hello and private visibility. -/
def fileA4 : FileData :=
  { id := "a", name := "a.md",
    localVariables := [{ id := "x", key := "X", value := "hello", visibility := some "private" }] }

/-- The requesting file of the private-visibility scenario. -/
def fileB4 : FileData := { id := "b", name := "b.md" }

/-- Project of the private-visibility scenario. -/
def projC4 : ProjectData := { files := [fileA4, fileB4] }

/-- Project snapshot with X = old in a.md. -/
def projC5 : ProjectData :=
  { files :=
      [{ id := "a", name := "a.md",
         localVariables := [{ id := "x", key := "X", value := "old" }] },
       { id := "b", name := "b.md" }] }

/-- The same project after mutating X to new. -/
def projC5n : ProjectData :=
  { files :=
      [{ id := "a", name := "a.md",
         localVariables := [{ id := "x", key := "X", value := "new" }] },
       { id := "b", name := "b.md" }] }

/-- The reference resolved twice in the staleness scenario. -/
def refC5 : CrossFileVariableRef :=
  { refKind := "file-path", filePath := "./a.md", variableName := "X",
    isRelative := true, status := "pending" }

/-- Current file of the empty-global-value scenario. -/
def fileC6 : FileData := { id := "f1", name := "f.md" }

/-- Project declaring the global greeting with the empty string value. -/
def projC6 : ProjectData :=
  { globalVariables := [{ id := "gv", key := "greeting", value := "" }],
    files := [fileC6] }

/-- Project declaring the global greeting with the nonempty value hi. -/
def projC6w : ProjectData :=
  { globalVariables := [{ id := "gv", key := "greeting", value := "hi" }],
    files := [fileC6] }

/-- Project where the referenced variable X of a.md has the empty string
as value (public). -/
def projC8 : ProjectData :=
  { files :=
      [{ id := "a", name := "a.md",
         localVariables := [{ id := "x", key := "X", value := "" }] },
       { id := "b", name := "b.md" }] }

/-- The reference parsed from the empty-value scenario content. -/
def refC8 : CrossFileVariableRef :=
  { refKind := "file-path", filePath := "./a.md", variableName := "X",
    isRelative := true, status := "pending" }

/-- An embed block in file f1 whose source is the embed block blkE2 of
file f2. -/
def embedE1 : EmbedData := { sourceFileId := "f2", sourceBlockId := "e2" }

/-- An embed block in file f2 pointing back at blkE1 of f1 (an arbitrarily
deep embed chain: here even a two-cycle). -/
def embedE2 : EmbedData := { sourceFileId := "f1", sourceBlockId := "e1" }

/-- The outer embed block. -/
def blkE1 : Block := { id := "e1", type := "embed", content := .embed embedE1 }

/-- The inner (source) embed block. -/
def blkE2 : Block := { id := "e2", type := "embed", content := .embed embedE2 }

/-- Project with a two-file chain of embed blocks pointing at each other. -/
def projC9 : ProjectData :=
  { files :=
      [{ id := "f1", name := "f1.md", blocks := [blkE1] },
       { id := "f2", name := "f2.md", blocks := [blkE2] }] }

/-- Table block with headers A, B, one row 1, 2, default alignment. -/
def tableBlockLeft : Block :=
  { id := "t1", type := "table", content := .table { headers := ["A", "B"], rows := [["1", "2"]] } }

/-- The same table with center and right alignment per column. -/
def tableBlockCR : Block :=
  { id := "t2", type := "table",
    content := .table { headers := ["A", "B"], rows := [["1", "2"]],
                        alignments := some ["center", "right"] } }

/-! Helper lemmas shared by the claim theorems. -/

/-- find? over the in-place replacement of an existing key returns the new
entry. -/
theorem find?_replace_self : ∀ (m : Cache) (k v : String),
    m.any (fun q => q.1 == k) = true →
    (m.map (fun p => if p.1 == k then (k, v) else p)).find? (fun p => p.1 == k)
      = some (k, v) := by
  intro m k v hm
  induction m with
  | nil => simp at hm
  | cons p m ih =>
    by_cases hp : (p.1 == k) = true
    · simp only [List.map_cons, if_pos hp, List.find?_cons, BEq.refl]
    · simp only [List.map_cons, if_neg hp, List.find?_cons]
      rw [Bool.of_not_eq_true hp]
      have hm' : m.any (fun q => q.1 == k) = true := by
        rcases List.any_eq_true.1 hm with ⟨q, hq, hqk⟩
        rcases List.mem_cons.1 hq with hq | hq
        · exact absurd (hq ▸ hqk) hp
        · exact List.any_eq_true.2 ⟨q, hq, hqk⟩
      exact ih hm'

/-- find? for a different key is unchanged by the in-place replacement. -/
theorem find?_replace_ne : ∀ (m : Cache) (k v k' : String), ¬ k' = k →
    (m.map (fun p => if p.1 == k then (k, v) else p)).find? (fun p => p.1 == k')
      = m.find? (fun p => p.1 == k') := by
  intro m k v k' hne
  have hkk : (k == k') = false := beq_eq_false_iff_ne.2 (fun h => hne h.symm)
  induction m with
  | nil => rfl
  | cons p m ih =>
    by_cases hp : (p.1 == k) = true
    · have hp' : p.1 = k := beq_iff_eq.1 hp
      have hhead : (if (p.1 == k) = true then (k, v) else p) = (k, v) := if_pos hp
      rw [List.map_cons, hhead, List.find?_cons]
      have h1 : ((k, v).1 == k') = false := hkk
      rw [h1, List.find?_cons]
      have h2 : (p.1 == k') = false := by rw [hp']; exact hkk
      rw [h2, ih]
    · simp only [List.map_cons, if_neg hp, List.find?_cons]
      cases hpk : (p.1 == k') with
      | true => rfl
      | false => exact ih

/-- Looking up the key just set returns the new value (JS Map.set then
Map.get round-trip). -/
theorem mapGet_mapSet_self : ∀ (m : Cache) (k v : String), mapGet (mapSet m k v) k = some v := by
  intro m k v
  unfold mapGet mapSet
  by_cases hm : m.any (fun q => q.1 == k) = true
  · rw [if_pos hm, find?_replace_self m k v hm]
  · rw [if_neg hm, List.find?_append]
    have hnone : m.find? (fun p => p.1 == k) = none := by
      rw [List.find?_eq_none]
      intro q hq hqk
      exact hm (List.any_eq_true.2 ⟨q, hq, hqk⟩)
    rw [hnone]
    simp [List.find?_cons]

/-- Setting one key does not change lookups of a different key. -/
theorem mapGet_mapSet_ne : ∀ (m : Cache) (k v k' : String), ¬ k' = k →
    mapGet (mapSet m k v) k' = mapGet m k' := by
  intro m k v k' hne
  have hkk : (k == k') = false := beq_eq_false_iff_ne.2 (fun h => hne h.symm)
  unfold mapGet mapSet
  by_cases hm : m.any (fun q => q.1 == k) = true
  · rw [if_pos hm, find?_replace_ne m k v k' hne]
  · rw [if_neg hm, List.find?_append]
    cases h : m.find? (fun p => p.1 == k') with
    | some p => rfl
    | none =>
      have h1 : ((k, v).1 == k') = false := hkk
      simp [List.find?_cons, h1]

/-- A JS Map built by inserting entries in list order answers lookups with
the value of the last entry whose key matches (later insertions overwrite
earlier ones); entries before the fold's initial map fall back to it. -/
theorem mapGet_foldl_mapSet : ∀ (vs : List Variable) (m : Cache) (k : String),
    mapGet (vs.foldl (fun m v => mapSet m v.key v.value) m) k =
      (match vs.reverse.find? (fun v => v.key == k) with
       | some v => some v.value
       | none => mapGet m k) := by
  intro vs
  induction vs with
  | nil => intro m k; simp
  | cons v tl ih =>
    intro m k
    simp only [List.foldl_cons, List.reverse_cons, List.find?_append]
    rw [ih (mapSet m v.key v.value) k]
    rcases h : tl.reverse.find? (fun w => w.key == k) with _ | w
    · rw [h]
      simp only [Option.none_or]
      by_cases hv : (v.key == k) = true
      · have hv' : v.key = k := beq_iff_eq.1 hv
        simp only [List.find?_cons, hv]
        rw [hv']
        exact mapGet_mapSet_self m k v.value
      · simp only [List.find?_cons, Bool.of_not_eq_true hv, List.find?_nil]
        have hne : ¬ k = v.key := fun he => hv (beq_iff_eq.2 he.symm)
        exact mapGet_mapSet_ne m v.key v.value k hne
    · rw [h]
      rfl

/-- Lookup in the Preview variable map: the last variable in the supplied
list with a matching key wins. -/
theorem mapGet_buildVariableMap (vs : List Variable) (k : String) :
    mapGet (buildVariableMap vs) k =
      (vs.reverse.find? (fun v => v.key == k)).map (fun v => v.value) := by
  unfold buildVariableMap
  rw [mapGet_foldl_mapSet]
  rcases h : vs.reverse.find? (fun v => v.key == k) with _ | w <;> rw [h] <;> rfl

/-- takeWhile and dropWhile on a list of satisfying characters followed by
a failing character split exactly at that character. -/
theorem takeWhile_append_sat {p : Char → Bool} : ∀ (K : List Char) (x : Char) (t : List Char),
    (∀ c ∈ K, p c = true) → p x = false →
    (K ++ x :: t).takeWhile p = K ∧ (K ++ x :: t).dropWhile p = x :: t := by
  intro K
  induction K with
  | nil => intro x t _ hx; simp [List.takeWhile_cons, List.dropWhile_cons, hx]
  | cons a K ih =>
    intro x t hK hx
    have ha : p a = true := hK a (by simp)
    have h2 := ih x t (fun c hc => hK c (by simp [hc])) hx
    simp [List.takeWhile_cons, List.dropWhile_cons, ha, h2.1, h2.2]

/-- A simple key character is none of the delimiter characters of the
reference grammars. -/
theorem keyChar_ne (c : Char) (h : isKeyChar c = true) :
    ¬ c = '$' ∧ ¬ c = '{' ∧ ¬ c = '}' ∧ ¬ c = '.' := by
  refine ⟨?_, ?_, ?_, ?_⟩ <;> intro he <;> subst he <;> revert h <;> decide

/-- A simple key character lies in the filename character class of the
double-brace reference grammar. -/
theorem keyChar_fnName (c : Char) (h : isKeyChar c = true) : fnNameChar c = true := by
  unfold isKeyChar at h
  unfold fnNameChar
  rcases Bool.or_eq_true_iff.1 h with h1 | h2
  · simp [h1]
  · simp [h2]

/-- The file-path reference matcher fails unless the input starts with the
dollar character. -/
theorem tryFilePathRef_none_of_head (c : Char) (cs : List Char) (h : ¬ c = '$') :
    tryFilePathRef (c :: cs) = none := by
  have hb : (c == '$') = false := by simpa using h
  unfold tryFilePathRef stripPrefixChars
  simp [hb]

/-- The filename reference matcher fails unless the input starts with an
open brace. -/
theorem tryFilenameRef_none_of_head (c : Char) (cs : List Char) (h : ¬ c = '{') :
    tryFilenameRef (c :: cs) = none := by
  have hb : (c == '{') = false := by simpa using h
  unfold tryFilenameRef stripPrefixChars
  simp [hb]

/-- A text containing no dollar character contains no file-path reference,
at any fuel. -/
theorem scanFP_nil_of_no_dollar : ∀ (fuel : Nat) (l : List Char), (∀ c ∈ l, ¬ c = '$') →
    scanRefsAux tryFilePathRef fuel l = [] := by
  intro fuel
  induction fuel with
  | zero => intro l _; rfl
  | succ n ih =>
    intro l h
    cases l with
    | nil => rfl
    | cons c cs =>
      simp only [scanRefsAux, tryFilePathRef_none_of_head c cs (h c (by simp))]
      exact ih cs (fun d hd => h d (by simp [hd]))

/-- A text containing no open brace contains no filename reference, at any
fuel. -/
theorem scanFN_nil_of_no_brace : ∀ (fuel : Nat) (l : List Char), (∀ c ∈ l, ¬ c = '{') →
    scanRefsAux tryFilenameRef fuel l = [] := by
  intro fuel
  induction fuel with
  | zero => intro l _; rfl
  | succ n ih =>
    intro l h
    cases l with
    | nil => rfl
    | cons c cs =>
      simp only [scanRefsAux, tryFilenameRef_none_of_head c cs (h c (by simp))]
      exact ih cs (fun d hd => h d (by simp [hd]))

/-- The filename reference matcher fails on a double-brace span whose
inner text is a simple key: the mandatory dot separator is missing. -/
theorem tryFN_at_braced_key (K : List Char) (hne : K ≠ [])
    (hK : ∀ c ∈ K, isKeyChar c = true) :
    tryFilenameRef ('{' :: '{' :: (K ++ '}' :: '}' :: [])) = none := by
  have htw := takeWhile_append_sat K '}' ['}']
    (fun c hc => keyChar_fnName c (hK c hc)) (by decide)
  unfold tryFilenameRef
  simp only [stripPrefixChars, beq_self_eq_true, if_true]
  rw [htw.1, htw.2]
  cases K with
  | nil => exact absurd rfl hne
  | cons k0 K' => rfl

/-- Neither reference scanner finds anything in a double-brace span whose
inner text is a simple key. -/
theorem scanFN_nil_braced_key : ∀ (fuel : Nat) (K : List Char), K ≠ [] →
    (∀ c ∈ K, isKeyChar c = true) →
    scanRefsAux tryFilenameRef fuel ('{' :: '{' :: (K ++ '}' :: '}' :: [])) = [] := by
  intro fuel K hne hK
  cases fuel with
  | zero => rfl
  | succ n =>
    simp only [scanRefsAux, tryFN_at_braced_key K hne hK]
    cases n with
    | zero => rfl
    | succ m =>
      cases K with
      | nil => exact absurd rfl hne
      | cons k0 K' =>
        have hk0 : isKeyChar k0 = true := hK k0 (by simp)
        have h2 : tryFilenameRef ('{' :: k0 :: (K' ++ '}' :: '}' :: [])) = none := by
          have hb : (k0 == '{') = false := by
            simpa using (keyChar_ne k0 hk0).2.1
          unfold tryFilenameRef
          simp [stripPrefixChars, hb]
        simp only [List.cons_append, scanRefsAux, h2]
        refine scanFN_nil_of_no_brace m (k0 :: (K' ++ '}' :: '}' :: [])) ?_
        intro c hc
        rcases List.mem_cons.1 hc with hc | hc
        · exact hc ▸ (keyChar_ne k0 hk0).2.1
        · rcases List.mem_append.1 hc with hc | hc
          · exact (keyChar_ne c (hK c (by simp [hc]))).2.1
          · rcases List.mem_cons.1 hc with hc | hc
            · subst hc; decide
            · rcases List.mem_cons.1 hc with hc | hc
              · subst hc; decide
              · simp at hc

/-- parseCrossFileReferences finds nothing in a double-brace span holding
a simple key: the file-path grammar needs a dollar sign and the filename
grammar needs a dot, and a simple key supplies neither. -/
theorem parse_braced_key_nil (k : String) (hne : k.data ≠ [])
    (hK : ∀ c ∈ k.data, isKeyChar c = true) :
    parseCrossFileReferences ("\x7b\x7b" ++ k ++ "\x7d\x7d") = [] := by
  have hdata : ("\x7b\x7b" ++ k ++ "\x7d\x7d").data = '{' :: '{' :: (k.data ++ '}' :: '}' :: []) := by
    rw [String.data_append, String.data_append]
    rfl
  unfold parseCrossFileReferences
  rw [hdata]
  rw [scanFP_nil_of_no_dollar _ _ ?nodollar, scanFN_nil_braced_key _ k.data hne hK]
  · rfl
  case nodollar =>
    intro c hc
    rcases List.mem_cons.1 hc with hc | hc
    · subst hc; decide
    · rcases List.mem_cons.1 hc with hc | hc
      · subst hc; decide
      · rcases List.mem_append.1 hc with hc | hc
        · exact (keyChar_ne c (hK c hc)).1
        · rcases List.mem_cons.1 hc with hc | hc
          · subst hc; decide
          · rcases List.mem_cons.1 hc with hc | hc
            · subst hc; decide
            · simp at hc

/-- resolveContent is the identity on the text (and on the cache) when the
parser finds no reference. -/
theorem resolveContent_of_parse_nil (content fid : String) (project : ProjectData)
    (cache : Cache) (h : parseCrossFileReferences content = []) :
    resolveContent content fid project cache = (content, cache) := by
  unfold resolveContent
  rw [h]
  rfl

/-- A reference whose cache key is present resolves immediately from the
cache: resolved status, the cached value, everything else (the
resolvedFileId included) untouched, and the cache unchanged. -/
theorem resolve_cache_hit (ref : CrossFileVariableRef) (fid : String)
    (project : ProjectData) (cache : Cache) (v : String)
    (h : mapGet cache (cacheKey fid ref) = some v) :
    resolveCrossFileReference ref fid project cache =
      ({ ref with resolvedValue := some v, status := "resolved" }, cache) := by
  unfold resolveCrossFileReference
  rw [h]

/-- After any resolution that reports resolved status, the cache maps the
reference's key to the reported value. -/
theorem resolve_resolved_cache (ref : CrossFileVariableRef) (fid : String)
    (project : ProjectData) (cache : Cache)
    (h : (resolveCrossFileReference ref fid project cache).1.status = "resolved") :
    ∃ v, (resolveCrossFileReference ref fid project cache).1.resolvedValue = some v ∧
      mapGet (resolveCrossFileReference ref fid project cache).2 (cacheKey fid ref) = some v := by
  rcases hm : mapGet cache (cacheKey fid ref) with _ | v
  · rcases ht : findTargetFileId ref fid project with _ | tid
    · simp [resolveCrossFileReference, hm, ht] at h
    · rcases hf : project.files.find? (fun f => f.id == tid) with _ | tf
      · simp [resolveCrossFileReference, hm, ht, hf] at h
      · rcases hv : lookupVariable tf project ref.variableName with _ | vr
        · simp [resolveCrossFileReference, hm, ht, hf, hv] at h
        · by_cases ha : isVariableAccessible vr fid tid = true
          · refine ⟨vr.value, ?_, ?_⟩
            · simp [resolveCrossFileReference, hm, ht, hf, hv, ha]
            · simp [resolveCrossFileReference, hm, ht, hf, hv, ha]
              exact mapGet_mapSet_self cache (cacheKey fid ref) vr.value
          · simp [resolveCrossFileReference, hm, ht, hf, hv, ha] at h
  · refine ⟨v, ?_, ?_⟩
    · simp [resolveCrossFileReference, hm]
    · simp [resolveCrossFileReference, hm]


/-- The substitution scan leaves the empty text empty, at any fuel. -/
theorem simpleSubstAux_nil (gvars : List Variable) (vmap : List (String × String)) :
    ∀ fuel, simpleSubstAux gvars vmap fuel [] = [] := by
  intro fuel
  cases fuel <;> rfl

/-- On a double-brace span holding a simple key, the simple-substitution
matcher fires and consumes the whole span, emitting the replacement
computed by substFor. -/
theorem trySimpleAt_braced_key (gvars : List Variable) (vmap : List (String × String))
    (K : List Char) (hne : K ≠ []) (hK : ∀ c ∈ K, isKeyChar c = true) :
    trySimpleAt gvars vmap ('{' :: '{' :: (K ++ '}' :: '}' :: [])) =
      some ((substFor gvars vmap (String.mk K)).data, []) := by
  have htw := takeWhile_append_sat (p := fun c => !(c == '}')) K '}' ['}']
    (fun c hc => by simpa using (keyChar_ne c (hK c hc)).2.2.1) (by decide)
  simp only [trySimpleAt, htw.1, htw.2]
  cases K with
  | nil => exact absurd rfl hne
  | cons k0 K' => rfl

/-- Scanning a text that is exactly one simple-key double-brace span
replaces it by the substFor replacement, at any sufficient fuel. -/
theorem simpleSubstAux_braced_key (gvars : List Variable) (vmap : List (String × String))
    (K : List Char) (hne : K ≠ []) (hK : ∀ c ∈ K, isKeyChar c = true) :
    ∀ fuel, simpleSubstAux gvars vmap (fuel + 1) ('{' :: '{' :: (K ++ '}' :: '}' :: [])) =
      (substFor gvars vmap (String.mk K)).data := by
  intro fuel
  simp only [simpleSubstAux, trySimpleAt_braced_key gvars vmap K hne hK,
    simpleSubstAux_nil, List.append_nil]

/-- The simple-substitution pass on a text that is exactly one double-brace
span holding a simple key yields the value the variable map assigns to
that key (when that value is nonempty, the key needs no trimming, and the
key does not carry the GLOBAL. prefix). -/
theorem simpleSubstitute_braced_key (gvars vs : List Variable) (k rv : String)
    (hne : k.data ≠ []) (hK : ∀ c ∈ k.data, isKeyChar c = true)
    (htrim : trimStr k = k) (hglob : startsWithStr k "GLOBAL." = false)
    (hget : mapGet (buildVariableMap vs) k = some rv) (hrv : ¬ rv = "") :
    simpleSubstitute gvars vs ("\x7b\x7b" ++ k ++ "\x7d\x7d") = rv := by
  have hdata : ("\x7b\x7b" ++ k ++ "\x7d\x7d").data = '{' :: '{' :: (k.data ++ '}' :: '}' :: []) := by
    rw [String.data_append, String.data_append]
    rfl
  unfold simpleSubstitute
  rw [hdata]
  rw [show ('{' :: '{' :: (k.data ++ '}' :: '}' :: [])).length
        = ((k.data ++ '}' :: '}' :: []).length + 1) + 1 from rfl]
  rw [simpleSubstAux_braced_key gvars (buildVariableMap vs) k.data hne hK _]
  have hmk : String.mk k.data = k := rfl
  rw [hmk]
  unfold substFor
  rw [htrim, hglob]
  have hrvb : (rv == "") = false := by simpa using hrv
  simp only [Bool.false_eq_true, if_false, hget, hrvb]

/-- Core substitution lemma: resolving a text that is exactly one
double-brace span holding a simple key, through both passes of
Preview.resolveVariables, yields the value the variable map built from the
supplied variable list assigns to the key. The cross-file pass cannot
touch the span because a simple key contains neither a dollar sign nor a
dot. -/
theorem resolveVariables_simple_key (project : ProjectData) (cfOpt : Option FileData)
    (cache : Cache) (k rv : String) (vs : List Variable)
    (hne : k.data ≠ []) (hK : ∀ c ∈ k.data, isKeyChar c = true)
    (htrim : trimStr k = k) (hglob : startsWithStr k "GLOBAL." = false)
    (hget : mapGet (buildVariableMap vs) k = some rv) (hrv : ¬ rv = "") :
    (resolveVariables project cfOpt cache ("\x7b\x7b" ++ k ++ "\x7d\x7d") vs).1 = rv := by
  cases cfOpt with
  | none =>
    exact simpleSubstitute_braced_key project.globalVariables vs k rv hne hK htrim hglob hget hrv
  | some cf =>
    simp only [resolveVariables]
    rw [resolveContent_of_parse_nil _ cf.id project cache (parse_braced_key_nil k hne hK)]
    exact simpleSubstitute_braced_key project.globalVariables vs k rv hne hK htrim hglob hget hrv


/-- The variable map built from the globals-then-locals list assigns a key
to the value of the last LOCAL variable declaring it, whenever some local
declares it (the locals sit after the globals, so the last insertion for
that key is a local one). -/
theorem local_last_lookup (gs ls : List Variable) (k : String) (lv : Variable)
    (hlast : ls.reverse.find? (fun v => v.key == k) = some lv) :
    mapGet (buildVariableMap (gs ++ ls)) k = some lv.value := by
  rw [mapGet_buildVariableMap, List.reverse_append, List.find?_append, hlast]
  rfl

/-! Claim theorems. -/

/-- Claim C7: for every input text in which the reference parser finds no
occurrence of either cross-file grammar, resolveContent returns the text
(and the cache) unchanged, for every current file id and project. -/
theorem resolveContent_identity_without_refs (content fid : String)
    (project : ProjectData) (cache : Cache)
    (h : parseCrossFileReferences content = []) :
    resolveContent content fid project cache = (content, cache) :=
  resolveContent_of_parse_nil content fid project cache h

/-- Witness for C7 at a concrete reference-free text. -/
theorem resolveContent_identity_without_refs_witness :
    parseCrossFileReferences "plain text, no references here" = [] ∧
    resolveContent "plain text, no references here" "f" projC4 [] =
      ("plain text, no references here", []) :=
  ⟨rfl, resolveContent_identity_without_refs "plain text, no references here" "f" projC4 [] rfl⟩

/-- Counterexample to claim C1 as stated: with the global shared = G and
the local shared = L of the current file, the simple substitution pass
replaces the double-brace span with L, the local value, not the global
one: the lookup map is a JS Map built by inserting globals first and
locals second, and a later insertion overwrites an earlier one. -/
theorem global_wins_ties_counterexample :
    (resolveVariables projC1 (some fileC1) [] "\x7b\x7bshared\x7d\x7d"
      (projC1.globalVariables ++ fileC1.localVariables)).1 = "L" ∧
    ("L" : String) ≠ "G" :=
  ⟨rfl, by decide⟩

/-- Claim C1 (amended): when a global variable and a local variable of the
current file are declared with the same simple key K (nonempty
alphanumerics or underscore, hence needing no trimming and not starting
with the GLOBAL. prefix) and the last local declaration of K carries a
NONEMPTY value, every occurrence of the double-brace span over K is
replaced by that LOCAL value — local wins ties — because the lookup map
is built by inserting the global-then-local list in order and the last
insertion per key wins. First conjunct: the replacement that substFor
computes for ANY matched occurrence whose trimmed inner key is K is the
local value (the scanner computes every occurrence's replacement through
substFor, so every occurrence receives it). Second conjunct: the full
two-pass pipeline on a single-span content. Third conjunct: a concrete
content holding two occurrences of the span, both replaced by the local
value. When the winning value is the empty string the pass instead emits
the Unknown marker — the same truthiness hazard as claim C6. -/
theorem simple_subst_local_wins_ties :
    (∀ (gvars gs ls : List Variable) (k : String) (lv : Variable) (raw : String),
       trimStr raw = k → startsWithStr k "GLOBAL." = false →
       ls.reverse.find? (fun v => v.key == k) = some lv → ¬ lv.value = "" →
       substFor gvars (buildVariableMap (gs ++ ls)) raw = lv.value) ∧
    (∀ (project : ProjectData) (cf : FileData) (cache : Cache) (k : String) (lv : Variable),
       k.data ≠ [] → (∀ c ∈ k.data, isKeyChar c = true) →
       trimStr k = k → startsWithStr k "GLOBAL." = false →
       cf.localVariables.reverse.find? (fun v => v.key == k) = some lv →
       ¬ lv.value = "" →
       (resolveVariables project (some cf) cache ("\x7b\x7b" ++ k ++ "\x7d\x7d")
         (project.globalVariables ++ cf.localVariables)).1 = lv.value) ∧
    (resolveVariables projC1 (some fileC1) []
        "\x7b\x7bshared\x7d\x7d and \x7b\x7bshared\x7d\x7d"
        (projC1.globalVariables ++ fileC1.localVariables)).1 = "L and L" := by
  refine ⟨?_, ?_, rfl⟩
  · intro gvars gs ls k lv raw htrim hglob hlast hval
    have hb : (lv.value == "") = false := beq_eq_false_iff_ne.2 hval
    simp only [substFor, htrim, hglob, Bool.false_eq_true, if_false,
      local_last_lookup gs ls k lv hlast, hb]
  · intro project cf cache k lv hne hK htrim hglob hlast hval
    exact resolveVariables_simple_key project (some cf) cache k lv.value
      (project.globalVariables ++ cf.localVariables) hne hK htrim hglob
      (local_last_lookup project.globalVariables cf.localVariables k lv hlast) hval

/-- Witness for C1: both hypothesis-bearing conjuncts discharged at the
tie of projC1 (global G, local L): the per-occurrence replacement and the
single-span pipeline both produce the local value L. -/
theorem simple_subst_local_wins_ties_witness :
    substFor [] (buildVariableMap (projC1.globalVariables ++ fileC1.localVariables)) "shared" = "L" ∧
    (resolveVariables projC1 (some fileC1) [] "\x7b\x7bshared\x7d\x7d"
      (projC1.globalVariables ++ fileC1.localVariables)).1 = "L" :=
  ⟨simple_subst_local_wins_ties.1 [] projC1.globalVariables fileC1.localVariables "shared"
      { id := "lv1", key := "shared", value := "L" } "shared"
      (by decide) (by decide) rfl (by decide),
   simple_subst_local_wins_ties.2.1 projC1 fileC1 [] "shared"
      { id := "lv1", key := "shared", value := "L" }
      (by decide) (by decide) (by decide) (by decide) rfl (by decide)⟩

/-- Counterexample to claim C6 as stated: a global variable declared with
the EMPTY string as value is not substituted — the or-else fallback in the
map lookup treats the empty value as missing, so the result is the Unknown
marker, not the declared value. -/
theorem global_empty_value_counterexample :
    (resolveVariables projC6 (some fileC6) [] "\x7b\x7bgreeting\x7d\x7d"
      (projC6.globalVariables ++ fileC6.localVariables)).1 = "[Unknown: greeting]" ∧
    ("[Unknown: greeting]" : String) ≠ "" :=
  ⟨rfl, by decide⟩

/-- Claim C6 (amended): for every simple variable key K (nonempty,
alphanumeric or underscore characters, hence needing no trimming and not
starting with the GLOBAL. prefix) declared as a global variable with a
NONEMPTY value V, where that global declaration is the last declaration of
K in the combined global-then-local variable list, resolving the
double-brace span over K yields V for any current file. -/
theorem global_key_substitution (project : ProjectData) (cf : FileData)
    (cache : Cache) (k : String) (g : Variable)
    (hne : k.data ≠ []) (hK : ∀ c ∈ k.data, isKeyChar c = true)
    (htrim : trimStr k = k) (hglob : startsWithStr k "GLOBAL." = false)
    (_hmem : g ∈ project.globalVariables)
    (hfound : (project.globalVariables ++ cf.localVariables).reverse.find?
        (fun v => v.key == k) = some g)
    (hval : ¬ g.value = "") :
    (resolveVariables project (some cf) cache ("\x7b\x7b" ++ k ++ "\x7d\x7d")
      (project.globalVariables ++ cf.localVariables)).1 = g.value := by
  apply resolveVariables_simple_key project (some cf) cache k g.value
    (project.globalVariables ++ cf.localVariables) hne hK htrim hglob _ hval
  rw [mapGet_buildVariableMap, hfound]
  rfl

/-- Witness for C6 with the nonempty global greeting = hi. -/
theorem global_key_substitution_witness :
    (resolveVariables projC6w (some fileC6) [] "\x7b\x7bgreeting\x7d\x7d"
      (projC6w.globalVariables ++ fileC6.localVariables)).1 = "hi" :=
  global_key_substitution projC6w fileC6 [] "greeting"
    { id := "gv", key := "greeting", value := "hi" }
    (by decide) (by decide) (by decide) (by decide) (by decide) rfl (by decide)


/-- Claim C2: a cache-hit resolution returns resolved status with the
cached value but copies the resolvedFileId of the incoming reference (left
unset for freshly parsed references); consequently buildDependencyGraph,
which records an edge and a cycle-detection adjacency entry only for
resolved references that carry a resolvedFileId, emits no edge and no
cycle input for cache-hit references: on projC2 with the seeded cache the
graph is empty. -/
theorem cache_hit_no_dependency_edges :
    (∀ (ref : CrossFileVariableRef) (fid : String) (project : ProjectData)
       (cache : Cache) (v : String),
       mapGet cache (cacheKey fid ref) = some v →
       resolveCrossFileReference ref fid project cache =
         ({ ref with resolvedValue := some v, status := "resolved" }, cache) ∧
       (resolveCrossFileReference ref fid project cache).1.resolvedFileId = ref.resolvedFileId) ∧
    buildDependencyGraph projC2 cacheC2 = ({ dependencies := [], circularRefs := [] }, cacheC2) := by
  constructor
  · intro ref fid project cache v h
    refine ⟨resolve_cache_hit ref fid project cache v h, ?_⟩
    rw [resolve_cache_hit ref fid project cache v h]
  · rfl

/-- Witness for C2: the seeded cache hit on refC2 keeps resolvedFileId
unset. -/
theorem cache_hit_no_dependency_edges_witness :
    resolveCrossFileReference refC2 "a" projC2 cacheC2 =
      ({ refC2 with resolvedValue := some "v", status := "resolved" }, cacheC2) ∧
    (resolveCrossFileReference refC2 "a" projC2 cacheC2).1.resolvedFileId = refC2.resolvedFileId :=
  cache_hit_no_dependency_edges.1 refC2 "a" projC2 cacheC2 "v" rfl

/-- Claim C3: on the three-file cycle project (empty cache, every
reference resolving successfully, as the three recorded edges show),
buildDependencyGraph reports exactly one cycle, the list a, b, c, a whose
last element repeats the start node; the DFS from the later roots b and c
finds both already visited and does not emit the cycle again. -/
theorem three_file_cycle_reported_once :
    (buildDependencyGraph projC3 []).1.circularRefs = [["a", "b", "c", "a"]] ∧
    (buildDependencyGraph projC3 []).1.dependencies.map
      (fun d => (d.sourceFileId, d.targetFileId)) = [("a", "b"), ("b", "c"), ("c", "a")] :=
  ⟨rfl, rfl⟩

/-- Claim C4: with X private in a.md, resolving the file-path reference
from file b yields the not-accessible error marker, while resolving the
identical text from file a itself yields hello; in general a private
variable is accessible exactly when the requesting file id equals the
target (declaring) file id. -/
theorem private_visibility_enforced :
    (resolveContent "$\x7bfile:./a.md:X\x7d" "b" projC4 []).1 =
      "[ERROR: Variable \x27X\x27 is not accessible (private)]" ∧
    (resolveContent "$\x7bfile:./a.md:X\x7d" "a" projC4 []).1 = "hello" ∧
    (∀ (v : Variable) (s t : String), v.visibility = some "private" →
      (isVariableAccessible v s t = true ↔ s = t)) := by
  refine ⟨rfl, rfl, ?_⟩
  intro v s t hv
  unfold isVariableAccessible
  rw [hv]
  simp

/-- Witness for C4: the general accessibility equivalence applied to a
private variable read from its own file. -/
theorem private_visibility_enforced_witness :
    isVariableAccessible
      { id := "x", key := "X", value := "hello", visibility := some "private" } "a" "a" = true :=
  (private_visibility_enforced.2.2
    { id := "x", key := "X", value := "hello", visibility := some "private" } "a" "a" rfl).mpr rfl

/-- Claim C5: once a reference resolves successfully, every later call
with the same currentFileId, syntax, filePath and variableName (any
reference record sharing those fields) returns resolved status with the
identical cached value, whatever project snapshot the later call receives;
concretely, after resolving X = old, re-resolving against the mutated
snapshot (X = new) still returns old, clearCache empties the cache, and
resolving after clearCache returns new. -/
theorem cache_stale_until_cleared :
    (∀ (ref ref2 : CrossFileVariableRef) (fid : String)
       (project project2 : ProjectData) (cache : Cache),
       ref2.refKind = ref.refKind → ref2.filePath = ref.filePath →
       ref2.variableName = ref.variableName →
       (resolveCrossFileReference ref fid project cache).1.status = "resolved" →
       (resolveCrossFileReference ref2 fid project2
           (resolveCrossFileReference ref fid project cache).2).1 =
         { ref2 with
             resolvedValue := (resolveCrossFileReference ref fid project cache).1.resolvedValue,
             status := "resolved" }) ∧
    (resolveCrossFileReference refC5 "b" projC5 []).1.resolvedValue = some "old" ∧
    (resolveCrossFileReference refC5 "b" projC5n
        (resolveCrossFileReference refC5 "b" projC5 []).2).1.resolvedValue = some "old" ∧
    (∀ c : Cache, clearCache c = []) ∧
    (resolveCrossFileReference refC5 "b" projC5n
        (clearCache (resolveCrossFileReference refC5 "b" projC5 []).2)).1.resolvedValue = some "new" := by
  refine ⟨?_, rfl, rfl, fun c => rfl, rfl⟩
  intro ref ref2 fid project project2 cache h1 h2 h3 hs
  obtain ⟨v, hv, hc⟩ := resolve_resolved_cache ref fid project cache hs
  have hhit : mapGet (resolveCrossFileReference ref fid project cache).2
      (cacheKey fid ref2) = some v := by
    have hkey : cacheKey fid ref2 = cacheKey fid ref := by
      unfold cacheKey
      rw [h1, h2, h3]
    rw [hkey]
    exact hc
  rw [resolve_cache_hit ref2 fid project2 _ v hhit, hv]

/-- Witness for C5: the staleness scenario discharges the general cache
hypotheses at refC5 against the old and new snapshots. -/
theorem cache_stale_until_cleared_witness :
    (resolveCrossFileReference refC5 "b" projC5n
        (resolveCrossFileReference refC5 "b" projC5 []).2).1 =
      { refC5 with
          resolvedValue := (resolveCrossFileReference refC5 "b" projC5 []).1.resolvedValue,
          status := "resolved" } :=
  cache_stale_until_cleared.1 refC5 refC5 "b" projC5 projC5n [] rfl rfl rfl rfl

/-- Claim C8: a reference that resolves successfully to the EMPTY string
is replaced by the bracketed Unresolved-reference error marker rather than
the empty string, because the substitution branch of resolveContent
demands a truthy resolved value in addition to resolved status (shown for
a text whose parse yields exactly that reference). -/
theorem empty_resolved_value_yields_error_marker (content fid : String)
    (project : ProjectData) (cache : Cache) (ref : CrossFileVariableRef)
    (hp : parseCrossFileReferences content = [ref])
    (hs : (resolveCrossFileReference ref fid project cache).1.status = "resolved")
    (hv : (resolveCrossFileReference ref fid project cache).1.resolvedValue = some "")
    (he : (resolveCrossFileReference ref fid project cache).1.error = none) :
    (resolveContent content fid project cache).1 =
      replaceAllStr content (refLiteral ref) "[ERROR: Unresolved reference]" := by
  unfold resolveContent
  rw [hp]
  simp only [List.foldl_cons, List.foldl_nil]
  simp [resolveContentStep, hs, hv, he, optTruthy, strOrDefault]

/-- Witness for C8: in projC8 the public variable X of a.md has the empty
value; resolving the reference text from file b yields the error marker. -/
theorem empty_resolved_value_yields_error_marker_witness :
    (resolveContent "$\x7bfile:./a.md:X\x7d" "b" projC8 []).1 =
      replaceAllStr "$\x7bfile:./a.md:X\x7d" (refLiteral refC8) "[ERROR: Unresolved reference]" ∧
    replaceAllStr "$\x7bfile:./a.md:X\x7d" (refLiteral refC8) "[ERROR: Unresolved reference]" =
      "[ERROR: Unresolved reference]" :=
  ⟨empty_resolved_value_yields_error_marker "$\x7bfile:./a.md:X\x7d" "b" projC8 [] refC8
      rfl rfl rfl rfl,
   rfl⟩

/-- Claim C9: projecting an embed block whose source block is itself an
embed block emits the opaque Embedded-embed-content marker, and in general
any source block with non-string content and a type other than table is
projected as the opaque Embedded-type-content marker; the projection never
looks further than this one source-block lookup, whatever the embed chain
underneath, so the marker is independent of any deeper chaining. -/
theorem embed_of_embed_opaque_marker :
    (∀ (project : ProjectData) (block : Block) (e : EmbedData) (sb : Block),
       block.type = "embed" → block.content = BlockContent.embed e →
       embedSourceBlock project e = some sb →
       (∀ s, sb.content ≠ BlockContent.text s) → sb.type ≠ "table" →
       blockToMarkdown project block = "[Embedded " ++ sb.type ++ " content]\n\n") ∧
    (∀ (project : ProjectData) (block : Block) (e ed : EmbedData) (sb : Block),
       block.type = "embed" → block.content = BlockContent.embed e →
       embedSourceBlock project e = some sb →
       sb.content = BlockContent.embed ed → sb.type = "embed" →
       blockToMarkdown project block = "[Embedded embed content]\n\n") := by
  have main : ∀ (project : ProjectData) (block : Block) (e : EmbedData) (sb : Block),
      block.type = "embed" → block.content = BlockContent.embed e →
      embedSourceBlock project e = some sb →
      (∀ s, sb.content ≠ BlockContent.text s) → sb.type ≠ "table" →
      blockToMarkdown project block = "[Embedded " ++ sb.type ++ " content]\n\n" := by
    intro project block e sb htype hc hsb hnotext hnotable
    obtain ⟨bid, bty, bname, bcontent⟩ := block
    simp only at htype hc
    subst htype
    subst hc
    have htb : (sb.type == "table") = false := beq_eq_false_iff_ne.2 hnotable
    unfold blockToMarkdown
    simp only [String.reduceBEq, Bool.false_eq_true, if_false, reduceIte, hsb, htb]
  refine ⟨main, ?_⟩
  intro project block e ed sb h1 h2 h3 h4 h5
  have hmarker := main project block e sb h1 h2 h3
    (fun s hs => by rw [h4] at hs; cases hs)
    (by rw [h5]; decide)
  rw [hmarker, h5]
  rfl

/-- Witness for C9: the two-file embed chain of projC9 projects to the
opaque marker. -/
theorem embed_of_embed_opaque_marker_witness :
    blockToMarkdown projC9 blkE1 = "[Embedded embed content]\n\n" :=
  embed_of_embed_opaque_marker.2 projC9 blkE1 embedE1 embedE2 blkE2 rfl rfl rfl rfl rfl

/-- Claim C10: the markdown projection of the table with headers A, B, one
row 1, 2 and default left alignment is exactly the three lines of header,
dash separator and data joined by single newlines; center and right
alignment produce the colon-decorated separator cells per column. -/
theorem table_markdown_projection :
    blockToMarkdown emptyProject tableBlockLeft = "| A | B |\n| --- | --- |\n| 1 | 2 |" ∧
    blockToMarkdown emptyProject tableBlockCR = "| A | B |\n| :---: | ---: |\n| 1 | 2 |" :=
  ⟨rfl, rfl⟩

end MarkFlow
